import Mathlib

/-!
Verification of the store-uptime aggregation service (src/app.py).

Shallow embedding conventions:
* A time-of-day is a number of seconds since local midnight (0 .. 86399),
  matching the second granularity of the stored business-hours values
  (parsed with the format "%H:%M:%S").
* A poll timestamp is an absolute instant, modelled as seconds since the
  epoch 1970-01-01 00:00:00 UTC (an Int).
* A timezone is identified by its zone name (a String); the pytz zone
  database is modelled as a partial map from zone names to fixed UTC
  offsets in seconds, carried in the database model.  pytz.timezone
  raising UnknownTimeZoneError on a name not in the database is modelled
  by the map returning none.  The conversion performed by
  datetime.astimezone is modelled as adding the resolved offset.
* The SQLite database is modelled as lists of rows; SQLAlchemy query
  order_by clauses are modelled by a stable insertion sort, and first()
  by List.head?.
* Python code that raises an uncaught exception (AttributeError from
  calling a method on None) is modelled by an Option-valued function
  returning none.
-/

namespace LoopApp

/-- Row of the StoreHours model: operating hours of a store on one weekday.
Weekday 0 is Monday, 6 is Sunday, as in Python datetime.weekday(). -/
structure StoreHoursRow where
  store_id : String
  day_of_week : Nat
  start_time : Nat
  end_time : Nat
deriving DecidableEq, Repr

/-- Row of the StoreStatus model: one status poll of a store. -/
structure StoreStatusRow where
  store_id : String
  status : String
  timestamp : Int
deriving DecidableEq, Repr

/-- Row of the Timezone model: the local timezone name of a store. -/
structure TimezoneRow where
  store_id : String
  timezone : String
deriving DecidableEq, Repr

/-- Row of the Report model: report registry entry. -/
structure ReportRow where
  report_id : String
  status : String
  time_taken : Int
deriving DecidableEq, Repr

/-- The database state, together with the pytz zone database modelled as a
partial map from zone names to fixed UTC offsets in seconds; none for a
name means pytz.timezone raises UnknownTimeZoneError on it. -/
structure DB where
  store_hours : List StoreHoursRow
  store_status : List StoreStatusRow
  timezones : List TimezoneRow
  tzdb : String → Option Int

/-- A local wall-clock datetime: local day ordinal (days since 1970-01-01
in the local frame), the Python weekday (0 = Monday), and the local
time-of-day in seconds since midnight. -/
structure LocalDT where
  date : Int
  weekday : Nat
  time : Nat
deriving DecidableEq, Repr

/-- Convert an absolute instant to a local datetime under a fixed UTC
offset, modelling datetime.astimezone.  1970-01-01 was a Thursday,
whose Python weekday is 3. -/
def toLocal (off : Int) (ts : Int) : LocalDT :=
  let l := ts + off
  let d := Int.fdiv l 86400
  { date := d, weekday := (Int.emod (d + 3) 7).toNat, time := (Int.emod l 86400).toNat }

/-- The rows of the StoreHours table matching one store and weekday
(the filter in get_store_time). -/
def storeHoursRows (db : DB) (store_id : String) (day_of_week : Nat) : List StoreHoursRow :=
  db.store_hours.filter (fun r => r.store_id == store_id && r.day_of_week == day_of_week)

/-- SQL ordering used by get_store_time: by start_time, then end_time,
ascending. -/
def hoursLe (a b : StoreHoursRow) : Prop :=
  a.start_time < b.start_time ∨ (a.start_time = b.start_time ∧ a.end_time ≤ b.end_time)

instance : DecidableRel hoursLe := fun a b =>
  inferInstanceAs (Decidable (a.start_time < b.start_time ∨
    (a.start_time = b.start_time ∧ a.end_time ≤ b.end_time)))

instance : IsTotal StoreHoursRow hoursLe where
  total a b := by
    unfold hoursLe
    omega

instance : IsTrans StoreHoursRow hoursLe where
  trans a b c hab hbc := by
    unfold hoursLe at *
    omega

/-- Embedding of get_store_time (src/app.py:63): the business hours of a
store on a weekday, sorted by start then end; if no rows exist, a single
synthetic interval covering 00:00:00 .. 23:59:59 is returned. -/
def get_store_time (db : DB) (store_id : String) (day_of_week : Nat) : List (Nat × Nat) :=
  let times := (List.insertionSort hoursLe (storeHoursRows db store_id day_of_week)).map
    (fun r => (r.start_time, r.end_time))
  if times.isEmpty then [(0, 86399)] else times

/-- Embedding of get_local_tz (src/app.py:98-101): the query for the
first Timezone row of the store followed by the pytz.timezone lookup of
its zone string.  none models either uncaught exception of the source:
the AttributeError raised by calling .timezone on the None returned by
first() when the store has no timezone row (line 99), or the
UnknownTimeZoneError raised by pytz.timezone when the stored zone string
is not a known zone name (line 100). -/
def get_local_tz (db : DB) (store_id : String) : Option Int :=
  match (db.timezones.filter (fun r => r.store_id == store_id)).head? with
  | none => none
  | some r => db.tzdb r.timezone

/-- SQL descending-timestamp ordering used by get_initial_vars. -/
def pollGe (a b : StoreStatusRow) : Prop := b.timestamp ≤ a.timestamp

instance : DecidableRel pollGe := fun a b =>
  inferInstanceAs (Decidable (b.timestamp ≤ a.timestamp))

/-- The status polls of a store, newest first (the query in
get_initial_vars, src/app.py:115). -/
def sortedPolls (db : DB) (store_id : String) : List StoreStatusRow :=
  List.insertionSort pollGe (db.store_status.filter (fun r => r.store_id == store_id))

/-- Embedding of the InitialVars bag returned by get_initial_vars.
The timezone is stored as its resolved fixed offset in seconds. -/
structure InitialVars where
  local_tz : Int
  last_day_ts : LocalDT
  business_hours : List (Nat × Nat)
  store_status : List StoreStatusRow

/-- Embedding of get_initial_vars (src/app.py:113).  Outer none models an
uncaught exception escaping get_local_tz (AttributeError for a missing
timezone row, or UnknownTimeZoneError for an invalid zone string);
some none is the Python None returned for an empty poll history (returned
before any timezone or business-hours lookup). -/
def get_initial_vars (db : DB) (store_id : String) : Option (Option InitialVars) :=
  match sortedPolls db store_id with
  | [] => some none
  | s0 :: rest =>
    match get_local_tz db store_id with
    | none => none
    | some off =>
      let last_day_ts := toLocal off s0.timestamp
      some (some { local_tz := off, last_day_ts := last_day_ts,
                   business_hours := get_store_time db store_id last_day_ts.weekday,
                   store_status := s0 :: rest })

/-- The six counters of the AllTimes dictionary (src/app.py:149). -/
structure AllTimes where
  up_weekly : Nat
  down_weekly : Nat
  up_daily : Nat
  down_daily : Nat
  up_hourly : Nat
  down_hourly : Nat
deriving DecidableEq, Repr

/-- The all-zero initial counters. -/
def AllTimes.zero : AllTimes := ⟨0, 0, 0, 0, 0, 0⟩

/-- The mutable state of the scanning loop in get_times: the counters and
the three window-closed flags. -/
structure ScanState where
  times : AllTimes
  did_hit_last_hour : Bool
  did_hit_last_day : Bool
  did_hit_last_week : Bool
deriving DecidableEq, Repr

/-- Initial scan state: zero counters, all flags false. -/
def ScanState.init : ScanState :=
  { times := AllTimes.zero, did_hit_last_hour := false,
    did_hit_last_day := false, did_hit_last_week := false }

/-- The interval-membership test of src/app.py:217: the poll is skipped
when its time is strictly before the start or strictly after the end, so
membership is inclusive at both bounds. -/
def inHours (t : Nat) (h : Nat × Nat) : Bool := !(t < h.1 || t > h.2)

/-- The uptime branch of the counter update (src/app.py:221): add to each
still-open window. -/
def bumpUp (st : ScanState) : AllTimes :=
  { st.times with
    up_hourly := if !st.did_hit_last_hour then st.times.up_hourly + 60 else st.times.up_hourly
    up_daily := if !st.did_hit_last_day then st.times.up_daily + 1 else st.times.up_daily
    up_weekly := if !st.did_hit_last_week then st.times.up_weekly + 1 else st.times.up_weekly }

/-- The downtime branch of the counter update (src/app.py:230). -/
def bumpDown (st : ScanState) : AllTimes :=
  { st.times with
    down_hourly := if !st.did_hit_last_hour then st.times.down_hourly + 60 else st.times.down_hourly
    down_daily := if !st.did_hit_last_day then st.times.down_daily + 1 else st.times.down_daily
    down_weekly := if !st.did_hit_last_week then st.times.down_weekly + 1 else st.times.down_weekly }

/-- The state change of one matched interval (src/app.py:220-243): update
the counters per status, then set the hour flag. -/
def matchStep (status : String) (st : ScanState) : ScanState :=
  { st with
    times := if status == "active" then bumpUp st else bumpDown st
    did_hit_last_hour := true }

/-- The inner loop of get_times over the business-hours intervals of one
poll (src/app.py:213-243).  Each interval is tested in order; a non-member
interval is skipped (continue); a member interval updates the counters per
status and then sets the hour flag.  There is no break: later matching
intervals are processed as well. -/
def processPoll (status : String) (t : Nat) : List (Nat × Nat) → ScanState → ScanState
  | [], st => st
  | h :: rest, st =>
    if !(inHours t h) then
      processPoll status t rest st
    else
      processPoll status t rest (matchStep status st)

/-- The day-flag update at the top of each iteration of get_times
(src/app.py:194): the scan passed the reference day when the local date of
the poll differs from the reference date. -/
def dayUpdate (status_dt last_day : LocalDT) (st : ScanState) : ScanState :=
  if !st.did_hit_last_day && status_dt.date != last_day.date then
    { st with did_hit_last_day := true } else st

/-- The week-flag update (src/app.py:199): a full week has elapsed when the
poll has a different local date but the same weekday as the reference. -/
def weekUpdate (status_dt last_day : LocalDT) (st : ScanState) : ScanState :=
  if !st.did_hit_last_week &&
      (status_dt.date != last_day.date && status_dt.weekday == last_day.weekday) then
    { st with did_hit_last_week := true } else st

/-- The outer loop of get_times over the polls, newest first
(src/app.py:187-243): update the day and week flags from the local date,
break when all three windows are closed, otherwise look up the business
hours of this poll and process it. -/
def scanLoop (db : DB) (store_id : String) (off : Int) (last_day : LocalDT) :
    List StoreStatusRow → ScanState → ScanState
  | [], st => st
  | status :: rest, st =>
    let status_dt := toLocal off status.timestamp
    let st2 := weekUpdate status_dt last_day (dayUpdate status_dt last_day st)
    if st2.did_hit_last_week && st2.did_hit_last_day && st2.did_hit_last_hour then st2
    else
      scanLoop db store_id off last_day rest
        (processPoll status.status status_dt.time (get_store_time db store_id status_dt.weekday) st2)

/-- Embedding of get_times (src/app.py:159): the six counters for a store.
none models the uncaught exception of a missing timezone row; an empty poll
history yields the zero counters. -/
def get_times (db : DB) (store_id : String) : Option AllTimes :=
  match get_initial_vars db store_id with
  | none => none
  | some none => some AllTimes.zero
  | some (some iv) =>
    some (scanLoop db store_id iv.local_tz iv.last_day_ts iv.store_status ScanState.init).times

/-- The CSV header row written by generate_report (src/app.py:259). -/
def report_header : List String :=
  ["store_id",
   "uptime_last_hour(in minutes)",
   "uptime_last_day(in hours)",
   "uptime_last_week(in hours)",
   "downtime_last_hour(in minutes)",
   "downtime_last_day(in hours)",
   "downtime_last_week(in hours)"]

/-- One CSV data row for a store (src/app.py:273). -/
def row_of (store_id : String) (t : AllTimes) : List String :=
  [store_id, toString t.up_hourly, toString t.up_daily, toString t.up_weekly,
   toString t.down_hourly, toString t.down_daily, toString t.down_weekly]

/-- SQL ascending store_id ordering used by the snapshot query. -/
def storeLe (a b : TimezoneRow) : Prop := a.store_id ≤ b.store_id

instance : DecidableRel storeLe := fun a b =>
  inferInstanceAs (Decidable (a.store_id ≤ b.store_id))

/-- The store-population snapshot taken at job start (src/app.py:255):
the first 100 rows of the Timezone table ordered by store_id. -/
def all_stores (db : DB) : List TimezoneRow :=
  (List.insertionSort storeLe db.timezones).take 100

/-- Sequential traversal that stops at the first failure: models a loop
whose body may raise, in which case the job dies before completion. -/
def mapOpt (f : α → Option β) : List α → Option (List β)
  | [] => some []
  | a :: as =>
    match f a, mapOpt f as with
    | some b, some bs => some (b :: bs)
    | _, _ => none

/-- Embedding of generate_report (src/app.py:250): the rows of the CSV
artifact as written when the job runs to completion (at which point, and
only then, the registry entry flips to Completed).  none models a job that
dies on an uncaught exception and never completes. -/
def generate_report (db : DB) : Option (List (List String)) :=
  (mapOpt (fun store =>
    (get_times db store.store_id).map (row_of store.store_id)) (all_stores db)).map
    (fun rows => report_header :: rows)

/-- Responses of the get_report route. -/
inductive ReportResponse where
  | running
  | file (report_id : String)
deriving DecidableEq, Repr

/-- Embedding of get_report (src/app.py:357).  The code reads .status on
the result of first() with no None check, so an unknown report_id raises
AttributeError (an unhandled 500, modelled by none), not a NotFound
response; a known id yields the Running status or the CSV file. -/
def get_report (reports : List ReportRow) (report_id : String) : Option ReportResponse :=
  match (reports.filter (fun r => r.report_id == report_id)).head? with
  | none => none
  | some report =>
    if report.status == "Running" then some ReportResponse.running
    else some (ReportResponse.file report_id)

/-- Embedding of the Timezone ingestion line (src/app.py:332): the Python
expression line[1] or defaults the empty timezone field to
the fixed fallback zone America/Chicago. -/
def ingest_timezone_row (store_id tz_field : String) : TimezoneRow :=
  { store_id := store_id,
    timezone := if tz_field == "" then "America/Chicago" else tz_field }

/-! Concrete database states used by the claim theorems below.
Day ordinal 4 (1970-01-05) is a Monday; 388800 = Monday 12:00:00 UTC,
385200 = Monday 11:00:00, 381600 = Monday 10:00:00; 32400 = 09:00:00,
36000 = 10:00:00, 61200 = 17:00:00 as seconds since midnight. -/

/-- Store S in UTC, Monday hours 09:00-17:00, polls newest-first at Monday
12:00 active, 11:00 inactive, 10:00 active: the scenario of the spec. -/
def c3db : DB :=
  { store_hours := [⟨"S", 0, 32400, 61200⟩],
    store_status := [⟨"S", "active", 388800⟩, ⟨"S", "inactive", 385200⟩, ⟨"S", "active", 381600⟩],
    timezones := [⟨"S", "UTC"⟩],
    tzdb := fun z => if z == "UTC" then some 0 else none }

/-- Store S in UTC with two overlapping Monday intervals 09:00-17:00 and
10:00-17:00, and a single poll at Monday 12:00 active. -/
def c1db : DB :=
  { store_hours := [⟨"S", 0, 32400, 61200⟩, ⟨"S", 0, 36000, 61200⟩],
    store_status := [⟨"S", "active", 388800⟩],
    timezones := [⟨"S", "UTC"⟩],
    tzdb := fun z => if z == "UTC" then some 0 else none }

/-- Store S in UTC with no configured hours and a single poll at Monday
12:00 whose status string is the capitalised "Active". -/
def c10db : DB :=
  { store_hours := [],
    store_status := [⟨"S", "Active", 388800⟩],
    timezones := [⟨"S", "UTC"⟩],
    tzdb := fun z => if z == "UTC" then some 0 else none }

/-- Store S with one poll but no row in the Timezone table. -/
def c4db : DB :=
  { store_hours := [],
    store_status := [⟨"S", "active", 388800⟩],
    timezones := [],
    tzdb := fun z => if z == "UTC" then some 0 else none }

/-- Store S with one poll and a Timezone row whose zone string is not a
known zone name: pytz.timezone raises UnknownTimeZoneError on it. -/
def c4bad : DB :=
  { store_hours := [],
    store_status := [⟨"S", "active", 388800⟩],
    timezones := [⟨"S", "Not/AZone"⟩],
    tzdb := fun z => if z == "UTC" then some 0 else none }

/-- Store S with no polls at all and an empty Timezone table: timezone
resolution would fail on this state if it were attempted. -/
def c8db : DB :=
  { store_hours := [⟨"S", 0, 32400, 61200⟩],
    store_status := [],
    timezones := [],
    tzdb := fun _ => none }

/-- A database state with an empty StoreHours table. -/
def c6db : DB :=
  { store_hours := [],
    store_status := [],
    timezones := [⟨"S", "UTC"⟩],
    tzdb := fun z => if z == "UTC" then some 0 else none }

/-- Ordering on the interval pairs produced by get_store_time: by start,
then end, ascending. -/
def intervalLe (a b : Nat × Nat) : Prop := a.1 < b.1 ∨ (a.1 = b.1 ∧ a.2 ≤ b.2)

/-- Invariant of the hourly window: the two hourly counters total at most
60 minutes, and are both zero while the hour window is still open. -/
def hourInv (st : ScanState) : Prop :=
  st.times.up_hourly + st.times.down_hourly ≤ 60 ∧
  (st.did_hit_last_hour = false → st.times.up_hourly = 0 ∧ st.times.down_hourly = 0)

/-! Helper lemmas about the inner interval loop. -/

theorem processPoll_day_flag (status : String) (t : Nat) (bs : List (Nat × Nat)) (st : ScanState) :
    (processPoll status t bs st).did_hit_last_day = st.did_hit_last_day := by
  induction bs generalizing st with
  | nil => rfl
  | cons h rest ih =>
    cases hm : inHours t h <;> simp [processPoll, hm, ih, matchStep]

theorem processPoll_week_flag (status : String) (t : Nat) (bs : List (Nat × Nat)) (st : ScanState) :
    (processPoll status t bs st).did_hit_last_week = st.did_hit_last_week := by
  induction bs generalizing st with
  | nil => rfl
  | cons h rest ih =>
    cases hm : inHours t h <;> simp [processPoll, hm, ih, matchStep]

theorem processPoll_hour_flag (status : String) (t : Nat) (bs : List (Nat × Nat)) (st : ScanState) :
    (processPoll status t bs st).did_hit_last_hour = (st.did_hit_last_hour || bs.any (inHours t)) := by
  induction bs generalizing st with
  | nil => simp [processPoll]
  | cons h rest ih =>
    cases hm : inHours t h
    · have hp : processPoll status t (h :: rest) st = processPoll status t rest st := by
        simp [processPoll, hm]
      rw [hp, ih, List.any_cons, hm, Bool.false_or]
    · have hp : processPoll status t (h :: rest) st
          = processPoll status t rest (matchStep status st) := by
        simp [processPoll, hm]
      rw [hp, ih, List.any_cons, hm]
      simp [matchStep]

theorem processPoll_hourly_closed (status : String) (t : Nat) (bs : List (Nat × Nat))
    (st : ScanState) (hc : st.did_hit_last_hour = true) :
    (processPoll status t bs st).times.up_hourly = st.times.up_hourly ∧
    (processPoll status t bs st).times.down_hourly = st.times.down_hourly := by
  induction bs generalizing st with
  | nil => exact ⟨rfl, rfl⟩
  | cons h rest ih =>
    cases hm : inHours t h
    · simpa [processPoll, hm] using ih st hc
    · have h1 : processPoll status t (h :: rest) st
          = processPoll status t rest (matchStep status st) := by
        simp [processPoll, hm]
      rw [h1]
      obtain ⟨e1, e2⟩ := ih _ (show (matchStep status st).did_hit_last_hour = true from rfl)
      rw [e1, e2]
      cases ha : status == "active" <;> simp [matchStep, bumpUp, bumpDown, hc, ha]

theorem processPoll_hourly_open (status : String) (t : Nat) (bs : List (Nat × Nat))
    (st : ScanState) (hc : st.did_hit_last_hour = false) :
    (processPoll status t bs st).times.up_hourly
      = st.times.up_hourly + (if bs.any (inHours t) && status == "active" then 60 else 0) ∧
    (processPoll status t bs st).times.down_hourly
      = st.times.down_hourly + (if bs.any (inHours t) && !(status == "active") then 60 else 0) := by
  induction bs generalizing st with
  | nil => simp [processPoll]
  | cons h rest ih =>
    cases hm : inHours t h
    · have hp : processPoll status t (h :: rest) st = processPoll status t rest st := by
        simp [processPoll, hm]
      rw [hp, List.any_cons, hm, Bool.false_or]
      exact ih st hc
    · have hp : processPoll status t (h :: rest) st
          = processPoll status t rest (matchStep status st) := by
        simp [processPoll, hm]
      rw [hp, List.any_cons, hm]
      obtain ⟨e1, e2⟩ := processPoll_hourly_closed status t rest (matchStep status st) rfl
      rw [e1, e2]
      cases ha : status == "active" <;> simp [matchStep, bumpUp, bumpDown, hc, ha]

theorem processPoll_daily (status : String) (t : Nat) (bs : List (Nat × Nat))
    (st : ScanState) (hd : st.did_hit_last_day = false) :
    (processPoll status t bs st).times.up_daily + (processPoll status t bs st).times.down_daily
      = st.times.up_daily + st.times.down_daily + bs.countP (inHours t) := by
  induction bs generalizing st with
  | nil => simp [processPoll]
  | cons h rest ih =>
    cases hm : inHours t h
    · rw [List.countP_cons]
      simpa [processPoll, hm] using ih st hd
    · have h1 : processPoll status t (h :: rest) st
          = processPoll status t rest (matchStep status st) := by
        simp [processPoll, hm]
      rw [h1, List.countP_cons, hm]
      have h2 := ih (matchStep status st)
        (show (matchStep status st).did_hit_last_day = false from by simpa [matchStep] using hd)
      rw [h2]
      cases ha : status == "active" <;> simp [matchStep, bumpUp, bumpDown, hd, ha] <;> omega

theorem processPoll_weekly (status : String) (t : Nat) (bs : List (Nat × Nat))
    (st : ScanState) (hw : st.did_hit_last_week = false) :
    (processPoll status t bs st).times.up_weekly + (processPoll status t bs st).times.down_weekly
      = st.times.up_weekly + st.times.down_weekly + bs.countP (inHours t) := by
  induction bs generalizing st with
  | nil => simp [processPoll]
  | cons h rest ih =>
    cases hm : inHours t h
    · rw [List.countP_cons]
      simpa [processPoll, hm] using ih st hw
    · have h1 : processPoll status t (h :: rest) st
          = processPoll status t rest (matchStep status st) := by
        simp [processPoll, hm]
      rw [h1, List.countP_cons, hm]
      have h2 := ih (matchStep status st)
        (show (matchStep status st).did_hit_last_week = false from by simpa [matchStep] using hw)
      rw [h2]
      cases ha : status == "active" <;> simp [matchStep, bumpUp, bumpDown, hw, ha] <;> omega

theorem processPoll_hourInv (status : String) (t : Nat) (bs : List (Nat × Nat))
    (st : ScanState) (h : hourInv st) : hourInv (processPoll status t bs st) := by
  obtain ⟨h60, hz⟩ := h
  cases hc : st.did_hit_last_hour
  · obtain ⟨hz1, hz2⟩ := hz hc
    obtain ⟨e1, e2⟩ := processPoll_hourly_open status t bs st hc
    constructor
    · rw [e1, e2, hz1, hz2]
      cases ha : bs.any (inHours t) <;> cases hb : (status == "active") <;> simp [ha, hb]
    · intro hf
      rw [processPoll_hour_flag, hc, Bool.false_or] at hf
      rw [hf] at e1 e2
      simp at e1 e2
      exact ⟨by rw [e1, hz1], by rw [e2, hz2]⟩
  · obtain ⟨e1, e2⟩ := processPoll_hourly_closed status t bs st hc
    constructor
    · rw [e1, e2]
      exact h60
    · intro hf
      rw [processPoll_hour_flag, hc, Bool.true_or] at hf
      exact absurd hf (by simp)

theorem dayUpdate_hourInv (a b : LocalDT) (st : ScanState) (h : hourInv st) :
    hourInv (dayUpdate a b st) := by
  unfold dayUpdate
  split <;> simpa [hourInv] using h

theorem weekUpdate_hourInv (a b : LocalDT) (st : ScanState) (h : hourInv st) :
    hourInv (weekUpdate a b st) := by
  unfold weekUpdate
  split <;> simpa [hourInv] using h

theorem scanLoop_hourInv (db : DB) (store_id : String) (off : Int) (last_day : LocalDT)
    (polls : List StoreStatusRow) (st : ScanState) (h : hourInv st) :
    hourInv (scanLoop db store_id off last_day polls st) := by
  induction polls generalizing st with
  | nil => exact h
  | cons p rest ih =>
    have h2 := weekUpdate_hourInv (toLocal off p.timestamp) last_day _
      (dayUpdate_hourInv (toLocal off p.timestamp) last_day st h)
    rw [show scanLoop db store_id off last_day (p :: rest) st
        = (if ((weekUpdate (toLocal off p.timestamp) last_day
              (dayUpdate (toLocal off p.timestamp) last_day st)).did_hit_last_week &&
            (weekUpdate (toLocal off p.timestamp) last_day
              (dayUpdate (toLocal off p.timestamp) last_day st)).did_hit_last_day &&
            (weekUpdate (toLocal off p.timestamp) last_day
              (dayUpdate (toLocal off p.timestamp) last_day st)).did_hit_last_hour) = true then
            weekUpdate (toLocal off p.timestamp) last_day
              (dayUpdate (toLocal off p.timestamp) last_day st)
          else
            scanLoop db store_id off last_day rest
              (processPoll p.status (toLocal off p.timestamp).time
                (get_store_time db store_id (toLocal off p.timestamp).weekday)
                (weekUpdate (toLocal off p.timestamp) last_day
                  (dayUpdate (toLocal off p.timestamp) last_day st)))) from rfl]
    split
    · exact h2
    · exact ih _ (processPoll_hourInv _ _ _ _ h2)

/-- C3: for one store in UTC with Monday business hours 09:00-17:00 and
three polls newest-first at Monday 12:00 (active), Monday 11:00 (inactive)
and Monday 10:00 (active), the aggregator returns up_hourly 60,
down_hourly 0, up_daily 2, down_daily 1, up_weekly 2, down_weekly 1. -/
theorem claim_C3 : get_times c3db "S" = some ⟨2, 1, 2, 1, 60, 0⟩ := by decide

/-- C1 counterexample: c1db holds a single poll observation (Monday 12:00
active) and two overlapping Monday intervals; the aggregator returns
up_daily 2 and up_weekly 2, so this one observation incremented the daily
and weekly counters twice, refuting the first-match-only claim. -/
theorem claim_C1_cex :
    c1db.store_status.length = 1 ∧
    get_times c1db "S" = some ⟨2, 0, 2, 0, 60, 0⟩ := by decide

/-- C1 (amended): for an observation inside several (possibly overlapping)
intervals, every matching interval in the list contributes one hour to the
still-open daily and weekly counters, so the daily and weekly increments
equal the number of matching intervals, not at most one; only the hourly
total grows by at most 60 minutes, because the hour window closes at the
first match. -/
theorem claim_C1_amended (status : String) (t : Nat) (bs : List (Nat × Nat))
    (st : ScanState) (hd : st.did_hit_last_day = false) (hw : st.did_hit_last_week = false) :
    ((processPoll status t bs st).times.up_daily + (processPoll status t bs st).times.down_daily
      = st.times.up_daily + st.times.down_daily + bs.countP (inHours t)) ∧
    ((processPoll status t bs st).times.up_weekly + (processPoll status t bs st).times.down_weekly
      = st.times.up_weekly + st.times.down_weekly + bs.countP (inHours t)) ∧
    ((processPoll status t bs st).times.up_hourly + (processPoll status t bs st).times.down_hourly
      = st.times.up_hourly + st.times.down_hourly
        + (if st.did_hit_last_hour = false ∧ bs.any (inHours t) = true then 60 else 0)) := by
  refine ⟨processPoll_daily status t bs st hd, processPoll_weekly status t bs st hw, ?_⟩
  cases hc : st.did_hit_last_hour
  · obtain ⟨e1, e2⟩ := processPoll_hourly_open status t bs st hc
    rw [e1, e2]
    cases ha : bs.any (inHours t) <;> cases hb : (status == "active") <;>
      simp [ha, hb] <;> omega
  · obtain ⟨e1, e2⟩ := processPoll_hourly_closed status t bs st hc
    rw [e1, e2]
    simp [hc]

/-- Witness for the amended C1 at the concrete overlapping intervals of
the counterexample: the daily increment equals the number of matching
intervals, which is two. -/
theorem claim_C1_witness :
    (processPoll "active" 43200 [(32400, 61200), (36000, 61200)] ScanState.init).times.up_daily
      + (processPoll "active" 43200 [(32400, 61200), (36000, 61200)] ScanState.init).times.down_daily
      = ScanState.init.times.up_daily + ScanState.init.times.down_daily
        + List.countP (inHours 43200) [(32400, 61200), (36000, 61200)] :=
  (claim_C1_amended "active" 43200 [(32400, 61200), (36000, 61200)] ScanState.init rfl rfl).1

/-- C7: business-hours interval membership is inclusive at both ends: for
a well-formed interval with start at most end, an observation whose local
time-of-day equals the start or the end is in hours, and such an
observation contributes: processing it closes the still-open hour window. -/
theorem claim_C7 (s e : Nat) (hse : s ≤ e) :
    inHours s (s, e) = true ∧ inHours e (s, e) = true ∧
    (∀ (status : String) (st : ScanState), st.did_hit_last_hour = false →
      (processPoll status s [(s, e)] st).did_hit_last_hour = true ∧
      (processPoll status e [(s, e)] st).did_hit_last_hour = true) := by
  have h1 : inHours s (s, e) = true := by simp [inHours]; omega
  have h2 : inHours e (s, e) = true := by simp [inHours]; omega
  refine ⟨h1, h2, ?_⟩
  intro status st hc
  constructor
  · rw [processPoll_hour_flag, hc]
    simp [h1]
  · rw [processPoll_hour_flag, hc]
    simp [h2]

/-- Witness for C7 at the interval 09:00:00 to 17:00:00: a poll exactly at
the start bound is in hours and a poll exactly at the end bound closes the
open hour window. -/
theorem claim_C7_witness :
    inHours 32400 (32400, 61200) = true ∧
    (processPoll "active" 61200 [(32400, 61200)] ScanState.init).did_hit_last_hour = true :=
  ⟨(claim_C7 32400 61200 (by decide)).1,
   ((claim_C7 32400 61200 (by decide)).2.2 "active" ScanState.init rfl).2⟩

/-- C8: for every database state and store whose poll history is empty,
get_times returns the all-zero counters.  The statement quantifies over
every database state with that poll filter empty, including states whose
Timezone and StoreHours tables would make a timezone resolution fail or a
business-hours lookup non-trivial: the result is the same for all of them,
because get_initial_vars returns before performing either lookup. -/
theorem claim_C8 (db : DB) (sid : String)
    (h : db.store_status.filter (fun r => r.store_id == sid) = []) :
    get_times db sid = some AllTimes.zero := by
  unfold get_times get_initial_vars sortedPolls
  rw [h]
  rfl

/-- Witness for C8: a store with no polls and an empty Timezone table, on
which timezone resolution would fail if it were attempted, still yields
the all-zero counters. -/
theorem claim_C8_witness :
    get_local_tz c8db "S" = none ∧ get_times c8db "S" = some AllTimes.zero :=
  ⟨rfl, claim_C8 c8db "S" rfl⟩

/-- C10: an in-business-hours observation is classified as uptime exactly
when its status string equals the lowercase "active": with the hour window
open, a matching poll adds 60 minutes to up_hourly when the status is
"active" and 60 minutes to down_hourly for every other status string.
The concrete conjunct shows the capitalised "Active" counted as downtime:
a single such poll yields down_hourly 60, down_daily 1, down_weekly 1. -/
theorem claim_C10 :
    (∀ (status : String) (pt : Nat) (bs : List (Nat × Nat)) (st : ScanState),
      st.did_hit_last_hour = false → bs.any (inHours pt) = true →
      ((status = "active" →
        (processPoll status pt bs st).times.up_hourly = st.times.up_hourly + 60 ∧
        (processPoll status pt bs st).times.down_hourly = st.times.down_hourly) ∧
       (status ≠ "active" →
        (processPoll status pt bs st).times.down_hourly = st.times.down_hourly + 60 ∧
        (processPoll status pt bs st).times.up_hourly = st.times.up_hourly))) ∧
    get_times c10db "S" = some ⟨0, 1, 0, 1, 0, 60⟩ := by
  constructor
  · intro status pt bs st hc hany
    obtain ⟨e1, e2⟩ := processPoll_hourly_open status pt bs st hc
    rw [hany] at e1 e2
    constructor
    · intro ha
      have hb : (status == "active") = true := by simp [ha]
      rw [hb] at e1 e2
      simp at e1 e2
      exact ⟨e1, e2⟩
    · intro ha
      have hb : (status == "active") = false := by simp [ha]
      rw [hb] at e1 e2
      simp at e1 e2
      exact ⟨e2, e1⟩
  · decide

/-- Witness for the universal part of C10: a poll whose status is the
capitalised "Active" string, matching the degenerate interval (0, 0) with
the hour window open, adds its 60 minutes to the downtime counter. -/
theorem claim_C10_witness :
    (processPoll "Active" 0 [(0, 0)] ScanState.init).times.down_hourly
      = ScanState.init.times.down_hourly + 60 :=
  ((claim_C10.1 "Active" 0 [(0, 0)] ScanState.init rfl (by decide)).2 (by decide)).1

/-- C2: for every database state and store, the hourly counters returned
by get_times total at most 60 minutes; once the hour window is closed no
observation changes the hourly counters; and the single observation that
closes it is in business hours and adds exactly 60 minutes to up_hourly
when its status is "active" and to down_hourly otherwise. -/
theorem claim_C2 :
    (∀ (db : DB) (sid : String) (t : AllTimes), get_times db sid = some t →
      t.up_hourly + t.down_hourly ≤ 60) ∧
    (∀ (status : String) (pt : Nat) (bs : List (Nat × Nat)) (st : ScanState),
      st.did_hit_last_hour = true →
      (processPoll status pt bs st).times.up_hourly = st.times.up_hourly ∧
      (processPoll status pt bs st).times.down_hourly = st.times.down_hourly) ∧
    (∀ (status : String) (pt : Nat) (bs : List (Nat × Nat)) (st : ScanState),
      st.did_hit_last_hour = false → bs.any (inHours pt) = true →
      (processPoll status pt bs st).did_hit_last_hour = true ∧
      (processPoll status pt bs st).times.up_hourly
        = st.times.up_hourly + (if status == "active" then 60 else 0) ∧
      (processPoll status pt bs st).times.down_hourly
        = st.times.down_hourly + (if status == "active" then 0 else 60)) := by
  refine ⟨?_, ?_, ?_⟩
  · intro db sid t h
    have hinv : hourInv ScanState.init :=
      ⟨by simp [ScanState.init, AllTimes.zero], fun _ => ⟨rfl, rfl⟩⟩
    unfold get_times at h
    cases hiv : get_initial_vars db sid with
    | none => rw [hiv] at h; cases h
    | some o =>
      cases o with
      | none =>
        rw [hiv] at h
        have ht := Option.some.inj h
        rw [← ht]
        decide
      | some iv =>
        rw [hiv] at h
        have h2 := scanLoop_hourInv db sid iv.local_tz iv.last_day_ts iv.store_status
          ScanState.init hinv
        have ht := Option.some.inj h
        rw [← ht]
        exact h2.1
  · exact processPoll_hourly_closed
  · intro status pt bs st hc hany
    obtain ⟨e1, e2⟩ := processPoll_hourly_open status pt bs st hc
    rw [hany] at e1 e2
    refine ⟨?_, ?_, ?_⟩
    · rw [processPoll_hour_flag, hc, hany]
      rfl
    · cases hb : (status == "active") <;> rw [hb] at e1 <;> simpa using e1
    · cases hb : (status == "active") <;> rw [hb] at e2 <;> simpa using e2

/-- Witness for C2: the counters of the concrete Monday scenario respect
the 60-minute hourly budget. -/
theorem claim_C2_witness :
    AllTimes.up_hourly ⟨2, 1, 2, 1, 60, 0⟩ + AllTimes.down_hourly ⟨2, 1, 2, 1, 60, 0⟩ ≤ 60 :=
  claim_C2.1 c3db "S" ⟨2, 1, 2, 1, 60, 0⟩ (by decide)

/-- C4 counterexample: on a store with a poll but no row in the Timezone
table, timezone resolution does not return a fallback zone: get_local_tz
dereferences the result of first() with no None check, raising
AttributeError (modelled by none), and the aggregation run dies with it. -/
theorem claim_C4_cex : get_local_tz c4db "S" = none ∧ get_times c4db "S" = none :=
  ⟨rfl, rfl⟩

/-- C4 (amended): timezone resolution returns the zone configured by the
first matching Timezone row when one exists and its zone string is a
known zone name; it fails with an unhandled error both when the zone
string is unknown (UnknownTimeZoneError from pytz.timezone) and when no
record exists at all (AttributeError on None); the fixed default fallback
America/Chicago is applied only at ingestion time, when a row is created
from a CSV line whose timezone field is empty. -/
theorem claim_C4_amended :
    (∀ (db : DB) (sid : String) (r : TimezoneRow) (off : Int),
      (db.timezones.filter (fun x => x.store_id == sid)).head? = some r →
      db.tzdb r.timezone = some off →
      get_local_tz db sid = some off) ∧
    (∀ (db : DB) (sid : String) (r : TimezoneRow),
      (db.timezones.filter (fun x => x.store_id == sid)).head? = some r →
      db.tzdb r.timezone = none →
      get_local_tz db sid = none) ∧
    (∀ (db : DB) (sid : String),
      db.timezones.filter (fun x => x.store_id == sid) = [] →
      get_local_tz db sid = none) ∧
    (∀ s : String, (ingest_timezone_row s "").timezone = "America/Chicago") ∧
    (∀ (s z : String), z ≠ "" → (ingest_timezone_row s z).timezone = z) := by
  refine ⟨?_, ?_, ?_, fun s => rfl, ?_⟩
  · intro db sid r off hr hz
    unfold get_local_tz
    rw [hr]
    exact hz
  · intro db sid r hr hz
    unfold get_local_tz
    rw [hr]
    exact hz
  · intro db sid hr
    unfold get_local_tz
    rw [hr]
    rfl
  · intro s z hz
    have hb : (z == "") = false := by simpa using hz
    simp [ingest_timezone_row, hb]

/-- Witness for the amended C4: the configured valid zone of store S
resolves to its offset, an unknown zone string makes resolution fail, and
ingesting an empty timezone field yields the fallback. -/
theorem claim_C4_witness :
    get_local_tz c3db "S" = some 0 ∧
    get_local_tz c4bad "S" = none ∧
    (ingest_timezone_row "X" "").timezone = "America/Chicago" :=
  ⟨claim_C4_amended.1 c3db "S" ⟨"S", "UTC"⟩ 0 rfl rfl,
   claim_C4_amended.2.1 c4bad "S" ⟨"S", "Not/AZone"⟩ rfl rfl,
   claim_C4_amended.2.2.2.1 "X"⟩

/-- C5 counterexample: fetching a report whose identifier has no registry
entry does not produce a NotFound condition: the route reads .status on
the None returned by first(), raising AttributeError (an unhandled server
error, modelled by none) instead of any NotFound response. -/
theorem claim_C5_cex : get_report [] "AbCdEfGhIj" = none := rfl

/-- C5 (amended): fetching with an unknown identifier fails with an
unhandled attribute error, not a NotFound condition; for a known
identifier the route returns the Running status while the registry entry
is Running and the artifact file once it is not. -/
theorem claim_C5_amended :
    (∀ (reports : List ReportRow) (rid : String),
      (reports.filter (fun x => x.report_id == rid)).head? = none →
      get_report reports rid = none) ∧
    (∀ (reports : List ReportRow) (rid : String) (r : ReportRow),
      (reports.filter (fun x => x.report_id == rid)).head? = some r →
      r.status = "Running" →
      get_report reports rid = some ReportResponse.running) ∧
    (∀ (reports : List ReportRow) (rid : String) (r : ReportRow),
      (reports.filter (fun x => x.report_id == rid)).head? = some r →
      r.status ≠ "Running" →
      get_report reports rid = some (ReportResponse.file rid)) := by
  refine ⟨?_, ?_, ?_⟩
  · intro reports rid hr
    unfold get_report
    rw [hr]
  · intro reports rid r hr hs
    unfold get_report
    rw [hr]
    have hb : (r.status == "Running") = true := by simp [hs]
    simp [hb]
  · intro reports rid r hr hs
    unfold get_report
    rw [hr]
    have hb : (r.status == "Running") = false := by simpa using hs
    simp [hb]

/-- Witness for the amended C5: a Running registry entry is reported as
Running, and a Completed entry yields the artifact file. -/
theorem claim_C5_witness :
    get_report [⟨"abc", "Running", 0⟩] "abc" = some ReportResponse.running ∧
    get_report [⟨"xyz", "Completed", 3⟩] "xyz" = some (ReportResponse.file "xyz") :=
  ⟨claim_C5_amended.2.1 [⟨"abc", "Running", 0⟩] "abc" ⟨"abc", "Running", 0⟩ rfl rfl,
   claim_C5_amended.2.2 [⟨"xyz", "Completed", 3⟩] "xyz" ⟨"xyz", "Completed", 3⟩ rfl (by decide)⟩

/-- C6: for every database state, store and weekday, the business-hours
lookup never returns an empty list; with no matching StoreHours rows it
returns exactly the single synthetic interval 00:00:00 to 23:59:59
(the full day at the second granularity of the stored times); otherwise it
returns the configured rows sorted by start then end ascending; and in
every case the returned list is sorted by start then end. -/
theorem claim_C6 (db : DB) (sid : String) (d : Nat) :
    get_store_time db sid d ≠ [] ∧
    (storeHoursRows db sid d = [] → get_store_time db sid d = [(0, 86399)]) ∧
    (storeHoursRows db sid d ≠ [] → get_store_time db sid d
      = (List.insertionSort hoursLe (storeHoursRows db sid d)).map
          (fun r => (r.start_time, r.end_time))) ∧
    List.Sorted intervalLe (get_store_time db sid d) := by
  by_cases hr : storeHoursRows db sid d = []
  · have hg : get_store_time db sid d = [(0, 86399)] := by
      unfold get_store_time
      rw [hr]
      rfl
    rw [hg]
    exact ⟨by simp, fun _ => rfl, fun hc => absurd hr hc, List.sorted_singleton _⟩
  · have hmapne : (List.insertionSort hoursLe (storeHoursRows db sid d)).map
        (fun r => (r.start_time, r.end_time)) ≠ [] := by
      rw [Ne, List.map_eq_nil_iff]
      intro hx
      apply hr
      have hlen := congrArg List.length hx
      rw [List.length_insertionSort] at hlen
      exact List.eq_nil_of_length_eq_zero hlen
    have hg : get_store_time db sid d = (List.insertionSort hoursLe (storeHoursRows db sid d)).map
        (fun r => (r.start_time, r.end_time)) := by
      unfold get_store_time
      rw [if_neg]
      rw [List.isEmpty_iff]
      exact hmapne
    rw [hg]
    refine ⟨hmapne, fun hc => absurd hc hr, fun _ => rfl, ?_⟩
    exact List.pairwise_map.mpr (List.sorted_insertionSort hoursLe (storeHoursRows db sid d))

/-- Witness for C6: with an empty StoreHours table the lookup returns the
single synthetic all-day interval. -/
theorem claim_C6_witness : get_store_time c6db "S" 0 = [(0, 86399)] :=
  (claim_C6 c6db "S" 0).2.1 rfl

theorem get_times_isSome (db : DB) (sid : String)
    (h : db.timezones.filter (fun r => r.store_id == sid) ≠ [])
    (hv : ∀ r ∈ db.timezones, (db.tzdb r.timezone).isSome) :
    (get_times db sid).isSome := by
  obtain ⟨z, hz⟩ : ∃ z, get_local_tz db sid = some z := by
    unfold get_local_tz
    cases hfl : db.timezones.filter (fun r => r.store_id == sid) with
    | nil => exact absurd hfl h
    | cons a l =>
      have ha : a ∈ db.timezones := by
        have hmem : a ∈ db.timezones.filter (fun r => r.store_id == sid) := by
          rw [hfl]
          exact List.mem_cons_self a l
        exact List.mem_of_mem_filter hmem
      exact Option.isSome_iff_exists.mp (hv a ha)
  unfold get_times get_initial_vars
  cases hp : sortedPolls db sid with
  | nil => rfl
  | cons s0 rest =>
    rw [hz]
    rfl

theorem mapOpt_eq_some {α β} (f : α → Option β) (l : List α) (bs : List β)
    (h : mapOpt f l = some bs) :
    bs.length = l.length ∧ ∀ b ∈ bs, ∃ a ∈ l, f a = some b := by
  induction l generalizing bs with
  | nil =>
    have hb : bs = [] := (Option.some.inj (show (some [] : Option (List β)) = some bs from h)).symm
    subst hb
    exact ⟨rfl, by simp⟩
  | cons a as ih =>
    unfold mapOpt at h
    cases hfa : f a with
    | none =>
      rw [hfa] at h
      cases h
    | some b =>
      rw [hfa] at h
      cases hrest : mapOpt f as with
      | none =>
        rw [hrest] at h
        cases h
      | some cs =>
        rw [hrest] at h
        have hb : b :: cs = bs := Option.some.inj h
        subst hb
        obtain ⟨hlen, hmem⟩ := ih cs hrest
        refine ⟨by simp [hlen], ?_⟩
        intro c hc
        rcases List.mem_cons.mp hc with hc1 | hc2
        · exact ⟨a, List.mem_cons_self a as, hc1 ▸ hfa⟩
        · obtain ⟨x, hx1, hx2⟩ := hmem c hc2
          exact ⟨x, List.mem_cons_of_mem a hx1, hx2⟩

theorem mapOpt_some {α β} (f : α → Option β) (l : List α)
    (h : ∀ a ∈ l, (f a).isSome) :
    ∃ bs, mapOpt f l = some bs ∧ bs.length = l.length ∧
      ∀ b ∈ bs, ∃ a ∈ l, f a = some b := by
  induction l with
  | nil => exact ⟨[], rfl, rfl, by simp⟩
  | cons a as ih =>
    obtain ⟨bs, hbs, hlen, hmem⟩ := ih (fun x hx => h x (List.mem_cons_of_mem a hx))
    obtain ⟨b, hb⟩ := Option.isSome_iff_exists.mp (h a (List.mem_cons_self a as))
    refine ⟨b :: bs, ?_, by simp [hlen], ?_⟩
    · unfold mapOpt
      rw [hb, hbs]
    · intro c hc
      rcases List.mem_cons.mp hc with hc1 | hc2
      · exact ⟨a, List.mem_cons_self a as, hc1 ▸ hb⟩
      · obtain ⟨x, hx1, hx2⟩ := hmem c hc2
        exact ⟨x, List.mem_cons_of_mem a hx1, hx2⟩

/-- C9: for every database state, whenever the report job runs to
completion (and only then does the registry entry flip to Completed), the
completed artifact starts with exactly the seven columns store_id,
uptime_last_hour(in minutes), uptime_last_day(in hours),
uptime_last_week(in hours), downtime_last_hour(in minutes),
downtime_last_day(in hours), downtime_last_week(in hours) in that order
(the report_header definition), followed by exactly one data row of seven
fields per store in the snapshot taken at job start; and the job does run
to completion whenever every configured zone string is a known zone name
(an invalid zone string instead kills the job with UnknownTimeZoneError,
so no completed artifact exists then). -/
theorem claim_C9 (db : DB) :
    (∀ csv, generate_report db = some csv →
      ∃ rows, csv = report_header :: rows ∧
        rows.length = (all_stores db).length ∧
        ∀ row ∈ rows, row.length = 7) ∧
    ((∀ r ∈ db.timezones, (db.tzdb r.timezone).isSome) →
      (generate_report db).isSome) := by
  constructor
  · intro csv hcsv
    unfold generate_report at hcsv
    cases hmo : mapOpt (fun store => (get_times db store.store_id).map (row_of store.store_id))
        (all_stores db) with
    | none =>
      rw [hmo] at hcsv
      cases hcsv
    | some bs =>
      rw [hmo] at hcsv
      have hc : report_header :: bs = csv := Option.some.inj hcsv
      obtain ⟨hlen, hmem⟩ := mapOpt_eq_some _ _ _ hmo
      refine ⟨bs, hc.symm, hlen, ?_⟩
      intro row hrow
      obtain ⟨a, ha1, ha2⟩ := hmem row hrow
      obtain ⟨t, ht1, ht2⟩ := Option.map_eq_some'.mp ha2
      rw [← ht2]
      rfl
  · intro hv
    have hstore : ∀ s ∈ all_stores db,
        ((get_times db s.store_id).map (row_of s.store_id)).isSome := by
      intro s hs
      have hs2 : s ∈ db.timezones :=
        (List.perm_insertionSort storeLe db.timezones).subset (List.take_subset _ _ hs)
      have hfil : s ∈ db.timezones.filter (fun r => r.store_id == s.store_id) :=
        List.mem_filter.mpr ⟨hs2, by simp⟩
      have hsome := get_times_isSome db s.store_id (List.ne_nil_of_mem hfil) hv
      obtain ⟨t, ht⟩ := Option.isSome_iff_exists.mp hsome
      rw [ht]
      rfl
    obtain ⟨bs, hbs, hlen, hmem⟩ := mapOpt_some _ (all_stores db) hstore
    unfold generate_report
    rw [hbs]
    rfl

/-- Witness for C9 at the concrete Monday-scenario database: its computed
artifact is exactly the header followed by one seven-field row for the
single store of the snapshot, and with every configured zone valid the
job completes. -/
theorem claim_C9_witness :
    (∃ rows, ([report_header, ["S", "60", "2", "2", "0", "1", "1"]] : List (List String))
        = report_header :: rows ∧
      rows.length = (all_stores c3db).length ∧
      ∀ row ∈ rows, row.length = 7) ∧
    (generate_report c3db).isSome :=
  ⟨(claim_C9 c3db).1 [report_header, ["S", "60", "2", "2", "0", "1", "1"]] (by decide),
   (claim_C9 c3db).2 (by decide)⟩

end LoopApp
